import Mathlib

/-!
Key-identifier test harness and packaging asset store of the launcher.

A shallow embedding of

* `pkg/keyidentifier/keyidentifier_test.go` (`testIdentifyFile`), and
* `pkg/packaging/internal/assets.go` (`Asset`, `AssetInfo`, `AssetDir`,
  `RestoreAsset`, `RestoreAssets`, `_filePath` and the two tables).

Go strings are embedded as Lean strings.  Every string operation the two files
use (equality, `strings.HasPrefix` with an ASCII prefix, `strings.Replace` of
the ASCII backslash, `strings.Split` on the ASCII slash) acts on the character
sequence exactly as it acts on the UTF-8 bytes.
-/

set_option autoImplicit false

namespace KeyIdentifier

/-! ## Data model of `keyidentifier_test.go` -/

/-- The `spec` struct of the test file (lines 16-25): one fixture.  The Go
field `Type` is written `Type_` here and in `KeyInfo`. -/
structure spec where
  KeyPath : String
  ExpectedFingerprintSHA256 : String
  ExpectedFingerprintMD5 : String
  Encrypted : Bool
  Bits : Int
  Type_ : String
  Format : String
  Source : String
  deriving DecidableEq, Repr

/-- Modelled from the spec: the `KeyInfo` type declaration is not among the
sources.  These are the fields of the spec's key descriptor that
`testIdentifyFile` reads and writes, with the Go types its uses force:
`Encrypted` is dereferenced, so it is a `*bool`, here an `Option Bool` with
`none` for the nil pointer; `Bits` is compared by `require.Equal` with the
fixture's `int`, so it is an `int`; the other four are compared with
strings. -/
structure KeyInfo where
  Format : String
  Type_ : String
  Encrypted : Option Bool
  Bits : Int
  FingerprintSHA256 : String
  FingerprintMD5 : String
  deriving DecidableEq, Repr

/-- How a run of `testIdentifyFile` ends.  Every `require.*` stops the test at
its first failure; dereferencing a nil `Encrypted` is a run-time panic. -/
inductive Outcome where
  | pass
  | failReadSpec       -- line 61
  | failParseSpec      -- line 64
  | failIdentify       -- line 68
  | panicNilEncrypted  -- `*actual.Encrypted` on nil (lines 103, 104, 124)
  | failBits           -- line 109
  | failSHA256         -- line 115
  | failMD5            -- line 118
  | failFormat         -- line 122
  | failType           -- line 123
  | failEncrypted      -- line 124
  deriving DecidableEq, Repr

/-- Go `strings.HasPrefix(s, prefix)`. -/
def HasPrefix (s pre : String) : Bool :=
  pre.data.isPrefixOf s.data

/-- Lines 72-85: the `switch expected.Type` that maps the short fixture names
to the SSH names, and rewrites both formats for ed25519. -/
def switchExpectedType (expected : spec) (actual : KeyInfo) : spec × KeyInfo :=
  if expected.Type_ = "rsa" then
    ({ expected with Type_ := "ssh-rsa" }, actual)
  else if expected.Type_ = "dsa" then
    ({ expected with Type_ := "ssh-dss" }, actual)
  else if expected.Type_ = "ed25519" then
    if actual.Format = "openssh" ∨ actual.Format = "openssh-new" then
      ({ expected with Type_ := "ssh-ed25519", Format := "openssh-new" },
       { actual with Format := "openssh-new" })
    else
      ({ expected with Type_ := "ssh-ed25519" }, actual)
  else
    (expected, actual)

/-- Lines 89-91: an elliptic fixture with an empty actual format does not
compare the format. -/
def ellipticFormat (expected : spec) (actual : KeyInfo) : spec × KeyInfo :=
  if expected.Type_ = "ecdsa" ∧ actual.Format = "" then
    ({ expected with Format := "" }, actual)
  else
    (expected, actual)

/-- Lines 95-98: the family-level normalisation of the elliptic types. -/
def whompType (expected : spec) (actual : KeyInfo) : spec × KeyInfo :=
  if HasPrefix actual.Type_ "ecdsa-" then
    ({ expected with Type_ := "ecdsa" }, { actual with Type_ := "ecdsa" })
  else
    (expected, actual)

/-- Lines 72-98 in sequence: the state of `expected` and `actual` when the
assertions start. -/
def rewrite (expected : spec) (actual : KeyInfo) : spec × KeyInfo :=
  let p1 := switchExpectedType expected actual
  let p2 := ellipticFormat p1.1 p1.2
  whompType p2.1 p2.2

/-- Go `c && *p`: the pointer is dereferenced only when `c` holds; `none` is
the nil-pointer panic. -/
def andDeref (c : Bool) (p : Option Bool) : Option Bool :=
  if c then p else some false

/-- The call `require.Equal(t, expected, actual, ...)`: `none` when the two values are
equal and the run goes on, the given failure when they differ. -/
def requireEqual {α : Type} [DecidableEq α] (expected actual : α) (fail : Outcome) :
    Option Outcome :=
  if expected = actual then none else some fail

/-- Sequencing of two statements: the second runs only when the first did not
stop the test. -/
def andThen (first next : Option Outcome) : Option Outcome :=
  match first with
  | some o => some o
  | none => next

/-- Lines 102-110: the tagless `switch` guarding the `Bits` assertion; the
cases are tried in order and the first true one is taken. -/
def checkBits (expected : spec) (actual : KeyInfo) : Option Outcome :=
  match andDeref (decide (actual.Format = "openssh")) actual.Encrypted with
  | none => some Outcome.panicNilEncrypted
  | some true => none
  | some false =>
    match andDeref (decide (expected.Type_ = "ecdsa")) actual.Encrypted with
    | none => some Outcome.panicNilEncrypted
    | some true => none
    | some false =>
      if actual.Format = "openssh-new" then none
      else if actual.Format = "putty" then none
      else if actual.Format = "sshcom" then none
      else requireEqual expected.Bits actual.Bits Outcome.failBits

/-- Lines 113-120: the fingerprint assertions. -/
def checkFingerprints (expected : spec) (actual : KeyInfo) : Option Outcome :=
  if actual.Format = "openssh-new" then
    andThen
      (if expected.Source ≠ "putty" then
        requireEqual expected.ExpectedFingerprintSHA256 actual.FingerprintSHA256
          Outcome.failSHA256
      else none)
      (requireEqual expected.ExpectedFingerprintMD5 actual.FingerprintMD5 Outcome.failMD5)
  else
    none

/-- Lines 122-124: the three closing assertions; the last one dereferences
`actual.Encrypted`. -/
def checkFinal (expected : spec) (actual : KeyInfo) : Option Outcome :=
  andThen (requireEqual expected.Format actual.Format Outcome.failFormat)
    (andThen (requireEqual expected.Type_ actual.Type_ Outcome.failType)
      (match actual.Encrypted with
       | none => some Outcome.panicNilEncrypted
       | some b => requireEqual expected.Encrypted b Outcome.failEncrypted))

/-- Lines 70-124 of `testIdentifyFile`: everything after the fixture is loaded
and the descriptor is returned. -/
def compareKeyInfo (expected : spec) (actual : KeyInfo) : Outcome :=
  let p := rewrite expected actual
  match andThen (checkBits p.1 p.2) (andThen (checkFingerprints p.1 p.2) (checkFinal p.1 p.2)) with
  | some o => o
  | none => Outcome.pass

/-- The collaborators `testIdentifyFile` calls: `ioutil.ReadFile`,
`json.Unmarshal` into a `spec`, and `(*KeyIdentifier).IdentifyFile`, which is
not among the sources and is taken as a parameter. -/
structure Harness where
  ReadFile : String → Except String String
  Unmarshal : String → Except String spec
  IdentifyFile : String → Except String KeyInfo

/-- The test `testIdentifyFile(t, kIdentifer, specFilePath)` (lines 58-125). -/
def testIdentifyFile (h : Harness) (specFilePath : String) : Outcome :=
  match h.ReadFile specFilePath with
  | .error _ => Outcome.failReadSpec
  | .ok data =>
    match h.Unmarshal data with
    | .error _ => Outcome.failParseSpec
    | .ok expected =>
      match h.IdentifyFile ("testdata/specs/" ++ expected.KeyPath) with
      | .error _ => Outcome.failIdentify
      | .ok actual => compareKeyInfo expected actual

/-- The fixture and the descriptor a run of `testIdentifyFile` works on. -/
def Loaded (h : Harness) (specFilePath : String) (expected : spec) (actual : KeyInfo) : Prop :=
  ∃ data, h.ReadFile specFilePath = .ok data ∧ h.Unmarshal data = .ok expected ∧
    h.IdentifyFile ("testdata/specs/" ++ expected.KeyPath) = .ok actual

/-- A harness that serves one fixture and one descriptor, whatever the path. -/
def constHarness (expected : spec) (actual : KeyInfo) : Harness where
  ReadFile := fun _ => .ok ""
  Unmarshal := fun _ => .ok expected
  IdentifyFile := fun _ => .ok actual

/-! ## Fixtures -/

/-- A fixture of an unencrypted 2048-bit RSA key in the given format. -/
def rsaSpec (format source : String) : spec where
  KeyPath := "rsa2048"
  ExpectedFingerprintSHA256 := "SHA256:ref"
  ExpectedFingerprintMD5 := "aa:bb"
  Encrypted := false
  Bits := 2048
  Type_ := "rsa"
  Format := format
  Source := source

/-- A descriptor of an unencrypted RSA key with the given format, bits and
SHA256 fingerprint. -/
def rsaKeyInfo (format : String) (bits : Int) (sha256 : String) : KeyInfo where
  Format := format
  Type_ := "ssh-rsa"
  Encrypted := some false
  Bits := bits
  FingerprintSHA256 := sha256
  FingerprintMD5 := "aa:bb"

/-- A fixture of an unencrypted ed25519 key that expects the given format. -/
def ed25519Spec (format : String) : spec where
  KeyPath := "ed25519"
  ExpectedFingerprintSHA256 := "SHA256:ed"
  ExpectedFingerprintMD5 := "cc:dd"
  Encrypted := false
  Bits := 256
  Type_ := "ed25519"
  Format := format
  Source := "openssh"

/-- A descriptor of an unencrypted ed25519 key reported in the given format. -/
def ed25519KeyInfo (format : String) : KeyInfo where
  Format := format
  Type_ := "ssh-ed25519"
  Encrypted := some false
  Bits := 256
  FingerprintSHA256 := "SHA256:ed"
  FingerprintMD5 := "cc:dd"

/-- A descriptor of an unencrypted 256-bit elliptic key in the legacy format. -/
def ecdsaKeyInfo : KeyInfo where
  Format := "openssh"
  Type_ := "ecdsa-sha2-nistp256"
  Encrypted := some false
  Bits := 2048
  FingerprintSHA256 := ""
  FingerprintMD5 := ""

end KeyIdentifier

namespace Assets

/-! ## Data model of `assets.go` -/

/-- Go `time.Time` as built by `time.Unix(sec, nsec)`. -/
structure Time where
  sec : Int
  nsec : Int
  deriving DecidableEq, Repr

/-- The `bindataFileInfo` struct (lines 24-29); `mode` is an `os.FileMode`. -/
structure bindataFileInfo where
  name : String
  size : Int
  mode : Nat
  modTime : Time
  deriving DecidableEq, Repr

/-- The `asset` struct (lines 19-22); the `[]byte` holds the text of the
embedded file. -/
structure asset where
  bytes : String
  info : bindataFileInfo
  deriving DecidableEq, Repr

deriving instance DecidableEq for Except

/-- A Go `func() (*asset, error)`; the error is carried by its message. -/
abbrev AssetFunc := Unit → Except String asset

/-! ## The embedded files and their generators (lines 50-253) -/

/-- The embedded text of `internal/assets/logrotate.conf` (line 50). -/
def _internalAssetsLogrotateConf : String :=
  "\x7b\x7b.LogPath\x7d\x7d \x7b\n    missingok\n    size 1M\n    rotate 5\n    sharedscripts\n    postrotate\n      /bin/kill -HUP \x60cat \x7b\x7b.PidPath\x7d\x7d 2> /dev/null\x60 2> /dev/null || true\n    endscript\n\x7d\n"

/-- Function `internalAssetsLogrotateConfBytes` (line 61). -/
def internalAssetsLogrotateConfBytes : Unit → Except String String :=
  fun _ => .ok _internalAssetsLogrotateConf

/-- Function `internalAssetsLogrotateConf` (line 65). -/
def internalAssetsLogrotateConf : AssetFunc :=
  fun _ =>
    match internalAssetsLogrotateConfBytes () with
    | .error err => .error err
    | .ok bytes =>
      .ok { bytes := bytes,
            info := { name := "internal/assets/logrotate.conf", size := 0, mode := 0,
                      modTime := { sec := 0, nsec := 0 } } }

/-- The embedded text of `internal/assets/postinstall-init.sh` (line 76). -/
def _internalAssetsPostinstallInitSh : String :=
  "#!/bin/sh\n\nif [ ! -z \x22\x7b\x7b.InfoFilename\x7d\x7d\x22 ]; then\n    cat <<EOF > \x22\x7b\x7b.InfoFilename\x7d\x7d\x22\n\x7b\x7b.InfoJson\x7d\x7d\nEOF\nfi\n\nif [ \x22$1\x22 = \x22configure\x22 ] || [ \x22$1\x22 = \x22abort-upgrade\x22 ]; then\n    if [ -e \x22/etc/init.d/\x7b\x7b.Identifier\x7d\x7d-launcher\x22 ]; then\n        chmod 755 \x22/etc/init.d/\x7b\x7b.Identifier\x7d\x7d-launcher\x22\n        update-rc.d \x22\x7b\x7b.Identifier\x7d\x7d-launcher\x22 defaults >/dev/null\n        invoke-rc.d \x22\x7b\x7b.Identifier\x7d\x7d-launcher\x22 start || exit $?\n    fi\nfi\n"

/-- Function `internalAssetsPostinstallInitShBytes` (line 93). -/
def internalAssetsPostinstallInitShBytes : Unit → Except String String :=
  fun _ => .ok _internalAssetsPostinstallInitSh

/-- Function `internalAssetsPostinstallInitSh` (line 97). -/
def internalAssetsPostinstallInitSh : AssetFunc :=
  fun _ =>
    match internalAssetsPostinstallInitShBytes () with
    | .error err => .error err
    | .ok bytes =>
      .ok { bytes := bytes,
            info := { name := "internal/assets/postinstall-init.sh", size := 0, mode := 0,
                      modTime := { sec := 0, nsec := 0 } } }

/-- The embedded text of `internal/assets/postinstall-launchd.sh` (line 108). -/
def _internalAssetsPostinstallLaunchdSh : String :=
  "#!/bin/sh\n\n[[ $3 != \x22/\x22 ]] && exit 0\n\n/bin/launchctl stop com.\x7b\x7b.Identifier\x7d\x7d.launcher\n\nif [ ! -z \x22\x7b\x7b.InfoFilename\x7d\x7d\x22 ]; then\n    PACKAGE_FILENAME=$(basename \x22$PACKAGE_PATH\x22)\n    cat <<EOF > \x22\x7b\x7b.InfoFilename\x7d\x7d\x22\n\x7b\x7b.InfoJson\x7d\x7d\nEOF\n\n    plutil -convert xml1 -o  \x22\x7b\x7bStringsTrimSuffix .InfoFilename \x60.json\x60\x7d\x7d.plist\x22 \x22\x7b\x7b.InfoFilename\x7d\x7d\x22\nfi\n\n# Sleep to let the stop take effect\nsleep 5\n\n/bin/launchctl unload \x7b\x7b.Path\x7d\x7d\n/bin/launchctl load \x7b\x7b.Path\x7d\x7d\n"

/-- Function `internalAssetsPostinstallLaunchdShBytes` (line 130). -/
def internalAssetsPostinstallLaunchdShBytes : Unit → Except String String :=
  fun _ => .ok _internalAssetsPostinstallLaunchdSh

/-- Function `internalAssetsPostinstallLaunchdSh` (line 134). -/
def internalAssetsPostinstallLaunchdSh : AssetFunc :=
  fun _ =>
    match internalAssetsPostinstallLaunchdShBytes () with
    | .error err => .error err
    | .ok bytes =>
      .ok { bytes := bytes,
            info := { name := "internal/assets/postinstall-launchd.sh", size := 0, mode := 0,
                      modTime := { sec := 0, nsec := 0 } } }

/-- The embedded text of `internal/assets/postinstall-systemd.sh` (line 145). -/
def _internalAssetsPostinstallSystemdSh : String :=
  "#!/bin/sh\n\nif [ ! -z \x22\x7b\x7b.InfoFilename\x7d\x7d\x22 ]; then\n    cat <<EOF > \x22\x7b\x7b.InfoFilename\x7d\x7d\x22\n\x7b\x7b.InfoJson\x7d\x7d\nEOF\nfi\n\nset -e\n\nsystemctl daemon-reload\n\nsystemctl enable launcher.\x7b\x7b.Identifier\x7d\x7d\nsystemctl restart launcher.\x7b\x7b.Identifier\x7d\x7d\n"

/-- Function `internalAssetsPostinstallSystemdShBytes` (line 161). -/
def internalAssetsPostinstallSystemdShBytes : Unit → Except String String :=
  fun _ => .ok _internalAssetsPostinstallSystemdSh

/-- Function `internalAssetsPostinstallSystemdSh` (line 165). -/
def internalAssetsPostinstallSystemdSh : AssetFunc :=
  fun _ =>
    match internalAssetsPostinstallSystemdShBytes () with
    | .error err => .error err
    | .ok bytes =>
      .ok { bytes := bytes,
            info := { name := "internal/assets/postinstall-systemd.sh", size := 0, mode := 0,
                      modTime := { sec := 0, nsec := 0 } } }

/-- The embedded text of `internal/assets/postinstall-upstart.sh` (line 176). -/
def _internalAssetsPostinstallUpstartSh : String :=
  "#!/bin/sh\n\n# upstart\x27s stop and restart commands error out if the daemon isn\x27t\n# running. So stop and start are separate, and \x60set -e\x60 is after the\n# stop.\n\nif [ ! -z \x22\x7b\x7b.InfoFilename\x7d\x7d\x22 ]; then\n    cat <<EOF > \x22\x7b\x7b.InfoFilename\x7d\x7d\x22\n\x7b\x7b.InfoJson\x7d\x7d\nEOF\nfi\n\nstop launcher-\x7b\x7b.Identifier\x7d\x7d\nset -e\nstart launcher-\x7b\x7b.Identifier\x7d\x7d\n"

/-- Function `internalAssetsPostinstallUpstartShBytes` (line 193). -/
def internalAssetsPostinstallUpstartShBytes : Unit → Except String String :=
  fun _ => .ok _internalAssetsPostinstallUpstartSh

/-- Function `internalAssetsPostinstallUpstartSh` (line 197). -/
def internalAssetsPostinstallUpstartSh : AssetFunc :=
  fun _ =>
    match internalAssetsPostinstallUpstartShBytes () with
    | .error err => .error err
    | .ok bytes =>
      .ok { bytes := bytes,
            info := { name := "internal/assets/postinstall-upstart.sh", size := 0, mode := 0,
                      modTime := { sec := 0, nsec := 0 } } }

/-- The embedded text of `internal/assets/preinstall-darwin.sh` (line 208). -/
def _internalAssetsPreinstallDarwinSh : String :=
  "#!/bin/sh\n\n# As of the Big Sur general release, Apple M1 machines no longer ship\n# Rosetta 2. Instead, this must be installed manually. As osquery does\n# not yet ship a universal binary, launcher requires rosetta2.\n#\n# During an interactive install, the user is prompted to okay a\n# rosetta2 install, but this does not appear to happen during an MDM\n# install. So, we need to trigger than from a preinstall script.\n\n# If we\x27re not Big Sur (build 20x), exit\nif [[ \x22$(/usr/bin/sw_vers -buildVersion)\x22 != 20* ]]; then\n    exit 0\nfi\n\n# If we\x27re not arm, exit\nif [ \x22$(/usr/bin/arch)\x22 != \x22arm64\x22 ]; then\n    exit 0\nfi\n\n# If it\x27s already installed, exit.  If this check misfires, we\x27ll\n# invoke software update an extra time, which should be okay.\nif [[ -f \x22/Library/Apple/System/Library/LaunchDaemons/com.apple.oahd.plist\x22 ]]; then\n    exit 0\nfi\n\n# report errors\nset -e\n\n/usr/sbin/softwareupdate --install-rosetta --agree-to-license\n"

/-- Function `internalAssetsPreinstallDarwinShBytes` (line 240). -/
def internalAssetsPreinstallDarwinShBytes : Unit → Except String String :=
  fun _ => .ok _internalAssetsPreinstallDarwinSh

/-- Function `internalAssetsPreinstallDarwinSh` (line 244). -/
def internalAssetsPreinstallDarwinSh : AssetFunc :=
  fun _ =>
    match internalAssetsPreinstallDarwinShBytes () with
    | .error err => .error err
    | .ok bytes =>
      .ok { bytes := bytes,
            info := { name := "internal/assets/preinstall-darwin.sh", size := 0, mode := 0,
                      modTime := { sec := 0, nsec := 0 } } }

/-- The table `_bindata` (lines 306-313): a Go map, here the list of its
entries; its keys are pairwise distinct. -/
def _bindata : List (String × AssetFunc) :=
  [("internal/assets/logrotate.conf", internalAssetsLogrotateConf),
   ("internal/assets/postinstall-init.sh", internalAssetsPostinstallInitSh),
   ("internal/assets/postinstall-launchd.sh", internalAssetsPostinstallLaunchdSh),
   ("internal/assets/postinstall-systemd.sh", internalAssetsPostinstallSystemdSh),
   ("internal/assets/postinstall-upstart.sh", internalAssetsPostinstallUpstartSh),
   ("internal/assets/preinstall-darwin.sh", internalAssetsPreinstallDarwinSh)]

/-- The type `bintree` (lines 350-353): `Func` is nil on a directory node,
`Children` is a Go map, here the list of its entries. -/
inductive bintree where
  | mk (Func : Option AssetFunc) (Children : List (String × bintree))

/-- The field `Func` of a node. -/
def bintree.Func : bintree → Option AssetFunc
  | .mk f _ => f

/-- The field `Children` of a node. -/
def bintree.Children : bintree → List (String × bintree)
  | .mk _ c => c

/-- The tree `_bintree` (lines 354-365). -/
def _bintree : bintree :=
  .mk none [
    ("internal", .mk none [
      ("assets", .mk none [
        ("logrotate.conf", .mk (some internalAssetsLogrotateConf) []),
        ("postinstall-init.sh", .mk (some internalAssetsPostinstallInitSh) []),
        ("postinstall-launchd.sh", .mk (some internalAssetsPostinstallLaunchdSh) []),
        ("postinstall-systemd.sh", .mk (some internalAssetsPostinstallSystemdSh) []),
        ("postinstall-upstart.sh", .mk (some internalAssetsPostinstallUpstartSh) []),
        ("preinstall-darwin.sh", .mk (some internalAssetsPreinstallDarwinSh) [])])])]

/-- The order in which a Go `range` visits the keys of a map: unspecified, so
any rearrangement of the keys. -/
structure MapOrder where
  order : List String → List String
  perm : ∀ keys, (order keys).Perm keys

/-- The order in which the entries are written in the source. -/
def sourceOrder : MapOrder where
  order := fun keys => keys
  perm := fun keys => List.Perm.refl keys

/-- The reverse of the order of the source. -/
def reverseOrder : MapOrder where
  order := fun keys => keys.reverse
  perm := fun keys => List.reverse_perm keys

/-! ## Strings and paths -/

/-- Go `strings.Replace(s, old, new, -1)` for one-character `old` and `new`:
every occurrence is replaced. -/
def Replace (s : String) (old new : Char) : String :=
  ⟨s.data.map (fun c => if c = old then new else c)⟩

/-- The pieces of a character sequence between the occurrences of `sep`; there
is always at least one piece. -/
def splitChars (sep : Char) : List Char → List (List Char)
  | [] => [[]]
  | c :: cs =>
    if c = sep then [] :: splitChars sep cs
    else
      match splitChars sep cs with
      | [] => [[c]]
      | w :: ws => (c :: w) :: ws

/-- The pieces joined again, with `sep` between two neighbours. -/
def joinChars (sep : Char) : List (List Char) → List Char
  | [] => []
  | [w] => w
  | w :: ws => w ++ sep :: joinChars sep ws

/-- Go `strings.Split(s, sep)` for a one-character `sep`. -/
def Split (s : String) (sep : Char) : List String :=
  (splitChars sep s.data).map String.mk

/-- Go `strings.Join(elems, "/")`. -/
def joinSlash (elems : List String) : String :=
  "/".intercalate elems

/-- The elements of a slash-separated path after the lexical clean-up of
`filepath.Clean`: empty and `.` elements are dropped, a `..` removes the
element before it, or is dropped at the root, or is kept at the start of a
relative path.  `acc` is the cleaned prefix, last element first. -/
def cleanElems (rooted : Bool) : List String → List String → List String
  | acc, [] => acc.reverse
  | acc, c :: cs =>
    if c = "" ∨ c = "." then cleanElems rooted acc cs
    else if c = ".." then
      match acc with
      | top :: rest =>
        if top = ".." then cleanElems rooted (c :: acc) cs
        else cleanElems rooted rest cs
      | [] => if rooted then cleanElems rooted [] cs else cleanElems rooted [c] cs
    else cleanElems rooted (c :: acc) cs

/-- Go `filepath.Clean` on a system whose separator is the slash. -/
def Clean (path : String) : String :=
  let rooted := path.data.head? = some '/'
  let out := (if rooted then "/" else "") ++ joinSlash (cleanElems rooted [] (Split path '/'))
  if out = "" then "." else out

/-- Go `filepath.Join` on a system whose separator is the slash: the elements
from the first non-empty one on are joined by slashes and cleaned; the result
is empty when every element is empty. -/
def Join (elem : List String) : String :=
  match elem.dropWhile (fun e => e = "") with
  | [] => ""
  | rest => Clean (joinSlash rest)

/-- The characters up to and including the last slash, given the reversed
sequence. -/
def dropLastElem : List Char → List Char
  | [] => []
  | c :: cs => if c = '/' then (c :: cs).reverse else dropLastElem cs

/-- Go `filepath.Dir` on a system whose separator is the slash: all but the
last element of the path, cleaned. -/
def Dir (path : String) : String :=
  Clean ⟨dropLastElem path.data.reverse⟩

/-- Function `_filePath` (lines 409-412). -/
def _filePath (dir name : String) : String :=
  let cannonicalName := Replace name '\\' '/'
  Join (dir :: Split cannonicalName '/')

/-! ## Lookup of assets (lines 255-348) -/

/-- The error `fmt.Errorf("Asset %s not found", name)`. -/
def assetNotFound (name : String) : String :=
  "Asset " ++ name ++ " not found"

/-- The error `fmt.Errorf("Asset %s can't read by error: %v", name, err)`. -/
def assetCantRead (name err : String) : String :=
  "Asset " ++ name ++ " can\x27t read by error: " ++ err

/-- Function `Asset` (lines 258-268); `.error e` is the return `nil, e`. -/
def Asset (name : String) : Except String String :=
  let cannonicalName := Replace name '\\' '/'
  match _bindata.lookup cannonicalName with
  | some f =>
    match f () with
    | .error err => .error (assetCantRead name err)
    | .ok a => .ok a.bytes
  | none => .error (assetNotFound name)

/-- Function `AssetInfo` (lines 284-294). -/
def AssetInfo (name : String) : Except String bindataFileInfo :=
  let cannonicalName := Replace name '\\' '/'
  match _bindata.lookup cannonicalName with
  | some f =>
    match f () with
    | .error err => .error ("AssetInfo " ++ name ++ " can\x27t read by error: " ++ err)
    | .ok a => .ok a.info
  | none => .error ("AssetInfo " ++ name ++ " not found")

/-- Function `AssetNames` (lines 297-303). -/
def AssetNames (o : MapOrder) : List String :=
  o.order (_bindata.map Prod.fst)

/-- The loop of `AssetDir` (lines 333-338): one step down per element of the
path, stopping with the error at the first missing child. -/
def descend (name : String) : bintree → List String → Except String bintree
  | node, [] => .ok node
  | node, p :: pathList =>
    match node.Children.lookup p with
    | none => .error (assetNotFound name)
    | some child => descend name child pathList

/-- Function `AssetDir` (lines 328-348); the keys of the children come in the order of
the map iteration. -/
def AssetDir (o : MapOrder) (name : String) : Except String (List String) :=
  let found :=
    if name ≠ "" then
      let cannonicalName := Replace name '\\' '/'
      descend name _bintree (Split cannonicalName '/')
    else .ok _bintree
  match found with
  | .error err => .error err
  | .ok node =>
    if node.Func.isSome then .error (assetNotFound name)
    else .ok (o.order (node.Children.map Prod.fst))

/-- The node reached from `node` by walking down the given components, when
every component names a child of the node before it. -/
def nodeAt : bintree → List String → Option bintree
  | node, [] => some node
  | node, p :: components =>
    match node.Children.lookup p with
    | none => none
    | some child => nodeAt child components

/-- The slash-separated components of a name, backslashes first replaced by
slashes; the empty name has none and stands for the root. -/
def pathComponents (name : String) : List String :=
  if name = "" then [] else Split (Replace name '\\' '/') '/'

/-! ## Restoring assets to disk (lines 367-407) -/

/-- The three file-system operations `RestoreAsset` performs, over a state
`σ` of the disk; each returns its error (`none` for nil) and the new state. -/
structure FileSys (σ : Type) where
  MkdirAll : String → Nat → σ → Option String × σ
  WriteFile : String → String → Nat → σ → Option String × σ
  Chtimes : String → Time → Time → σ → Option String × σ

/-- Every file-system operation succeeds. -/
def FileSys.Succeeds {σ : Type} (fs : FileSys σ) : Prop :=
  (∀ path perm s, (fs.MkdirAll path perm s).1 = none) ∧
  (∀ path data perm s, (fs.WriteFile path data perm s).1 = none) ∧
  (∀ path atime mtime s, (fs.Chtimes path atime mtime s).1 = none)

/-- A disk that records the path of every operation and never fails. -/
def recordingFS : FileSys (List String) where
  MkdirAll := fun path _ s => (none, s ++ ["mkdir " ++ path])
  WriteFile := fun path _ _ s => (none, s ++ ["write " ++ path])
  Chtimes := fun path _ _ s => (none, s ++ ["chtimes " ++ path])

/-- Function `RestoreAsset` (lines 368-390): the returned error and the new state of
the disk. -/
def RestoreAsset {σ : Type} (fs : FileSys σ) (dir name : String) (s : σ) : Option String × σ :=
  match Asset name with
  | .error err => (some err, s)
  | .ok data =>
    match AssetInfo name with
    | .error err => (some err, s)
    | .ok info =>
      match fs.MkdirAll (_filePath dir (Dir name)) 0o755 s with
      | (some err, s1) => (some err, s1)
      | (none, s1) =>
        match fs.WriteFile (_filePath dir name) data info.mode s1 with
        | (some err, s2) => (some err, s2)
        | (none, s2) =>
          match fs.Chtimes (_filePath dir name) info.modTime info.modTime s2 with
          | (some err, s3) => (some err, s3)
          | (none, s3) => (none, s3)

/-- The state `RestoreAssets` threads: the disk, and the list of the
`(dir, name)` arguments of the calls to `RestoreAsset` made so far. -/
abbrev RestoreState (σ : Type) := σ × List (String × String)

/-- The loop of `RestoreAssets` (lines 400-405) over the children, with the
recursive call as a parameter; it returns at the first error. -/
def restoreChildren {σ : Type}
    (recurse : String → RestoreState σ → Option (Option String × RestoreState σ))
    (name : String) : List String → RestoreState σ → Option (Option String × RestoreState σ)
  | [], st => some (none, st)
  | child :: children, st =>
    match recurse (Join [name, child]) st with
    | none => none
    | some (some err, st1) => some (some err, st1)
    | some (none, st1) => restoreChildren recurse name children st1

/-- Function `RestoreAssets` (lines 393-407).  `fuel` bounds the depth of the nested
calls; `none` means the bound was reached. -/
def RestoreAssets {σ : Type} (o : MapOrder) (fs : FileSys σ) (dir : String) :
    Nat → String → RestoreState σ → Option (Option String × RestoreState σ)
  | 0, _, _ => none
  | fuel + 1, name, st =>
    match AssetDir o name with
    | .error _ =>
      let r := RestoreAsset fs dir name st.1
      some (r.1, (r.2, st.2 ++ [(dir, name)]))
    | .ok children => restoreChildren (RestoreAssets o fs dir fuel) name children st

mutual
/-- The number of nodes on the longest path from a node down to a leaf. -/
def bintree.depth : bintree → Nat
  | .mk _ children => 1 + bintree.depthList children
/-- The largest depth among the children. -/
def bintree.depthList : List (String × bintree) → Nat
  | [] => 0
  | (_, t) :: rest => max t.depth (bintree.depthList rest)
end

/-- An asset path lies under a directory name: the directory is the root, or
the path starts with the directory name followed by a slash. -/
def liesUnder (dir assetName : String) : Bool :=
  dir = "" || (dir ++ "/").data.isPrefixOf assetName.data

end Assets

namespace KeyIdentifier

/-! ## Facts about the rewriting steps (lines 72-98) -/

theorem hasPrefix_iff (s pre : String) :
    HasPrefix s pre = true ↔ ∃ t : String, s = pre ++ t := by
  unfold HasPrefix
  rw [List.isPrefixOf_iff_prefix]
  constructor
  · rintro ⟨t, ht⟩
    exact ⟨⟨t⟩, by apply String.ext; simp [String.data_append, ht]⟩
  · rintro ⟨t, rfl⟩
    exact ⟨t.data, by simp [String.data_append]⟩

theorem not_hasPrefix_ecdsa : HasPrefix "ecdsa" "ecdsa-" = false := by decide

theorem rewrite_actual_encrypted (e : spec) (a : KeyInfo) :
    (rewrite e a).2.Encrypted = a.Encrypted := by
  simp only [rewrite, switchExpectedType, ellipticFormat, whompType]
  repeat' split
  all_goals rfl


theorem rewrite_expected_encrypted (e : spec) (a : KeyInfo) :
    (rewrite e a).1.Encrypted = e.Encrypted := by
  simp only [rewrite, switchExpectedType, ellipticFormat, whompType]
  repeat' split
  all_goals rfl

theorem andThen_eq_none (x y : Option Outcome) :
    andThen x y = none ↔ x = none ∧ y = none := by
  cases x <;> simp [andThen]

theorem requireEqual_eq_none {α : Type} [DecidableEq α] (x y : α) (f : Outcome) :
    requireEqual x y f = none ↔ x = y := by
  unfold requireEqual; split <;> simp [*]

theorem requireEqual_ne_pass {α : Type} [DecidableEq α] (x y : α) (f : Outcome)
    (hf : f ≠ Outcome.pass) : requireEqual x y f ≠ some Outcome.pass := by
  unfold requireEqual; split
  · simp
  · simpa using hf

theorem andThen_ne_pass (x y : Option Outcome) (hx : x ≠ some Outcome.pass)
    (hy : y ≠ some Outcome.pass) : andThen x y ≠ some Outcome.pass := by
  cases x <;> simp_all [andThen]

theorem checkBits_ne_pass (e : spec) (a : KeyInfo) : checkBits e a ≠ some Outcome.pass := by
  unfold checkBits
  repeat' split
  all_goals first
    | exact requireEqual_ne_pass _ _ _ (by decide)
    | simp

theorem checkFingerprints_ne_pass (e : spec) (a : KeyInfo) :
    checkFingerprints e a ≠ some Outcome.pass := by
  unfold checkFingerprints
  split
  · apply andThen_ne_pass
    · split
      · exact requireEqual_ne_pass _ _ _ (by decide)
      · simp
    · exact requireEqual_ne_pass _ _ _ (by decide)
  · simp

theorem checkFinal_ne_pass (e : spec) (a : KeyInfo) : checkFinal e a ≠ some Outcome.pass := by
  unfold checkFinal
  apply andThen_ne_pass
  · exact requireEqual_ne_pass _ _ _ (by decide)
  · apply andThen_ne_pass
    · exact requireEqual_ne_pass _ _ _ (by decide)
    · split
      · simp
      · exact requireEqual_ne_pass _ _ _ (by decide)

/-- A run passes exactly when none of the three groups of assertions stops it. -/
theorem compareKeyInfo_pass_iff (e : spec) (a : KeyInfo) :
    compareKeyInfo e a = Outcome.pass ↔
      checkBits (rewrite e a).1 (rewrite e a).2 = none ∧
      checkFingerprints (rewrite e a).1 (rewrite e a).2 = none ∧
      checkFinal (rewrite e a).1 (rewrite e a).2 = none := by
  have hne := andThen_ne_pass _ _ (checkBits_ne_pass (rewrite e a).1 (rewrite e a).2)
    (andThen_ne_pass _ _ (checkFingerprints_ne_pass (rewrite e a).1 (rewrite e a).2)
      (checkFinal_ne_pass (rewrite e a).1 (rewrite e a).2))
  simp only [compareKeyInfo]
  rw [← andThen_eq_none, ← andThen_eq_none]
  generalize andThen _ _ = r at hne ⊢
  cases r with
  | none => simp
  | some o => simpa using hne

theorem checkFinal_eq_none (e : spec) (a : KeyInfo) :
    checkFinal e a = none ↔
      e.Format = a.Format ∧ e.Type_ = a.Type_ ∧ a.Encrypted = some e.Encrypted := by
  unfold checkFinal
  rw [andThen_eq_none, andThen_eq_none, requireEqual_eq_none, requireEqual_eq_none]
  cases h : a.Encrypted <;> simp [requireEqual_eq_none, eq_comm]

theorem testIdentifyFile_of_loaded (h : Harness) (path : String) (e : spec) (a : KeyInfo)
    (hl : Loaded h path e a) : testIdentifyFile h path = compareKeyInfo e a := by
  obtain ⟨data, h1, h2, h3⟩ := hl
  simp [testIdentifyFile, h1, h2, h3]


theorem rewrite_bits (e : spec) (a : KeyInfo) :
    (rewrite e a).1.Bits = e.Bits ∧ (rewrite e a).2.Bits = a.Bits := by
  simp only [rewrite, switchExpectedType, ellipticFormat, whompType]
  repeat' split
  all_goals exact ⟨rfl, rfl⟩

theorem rewrite_fingerprints (e : spec) (a : KeyInfo) :
    (rewrite e a).1.ExpectedFingerprintMD5 = e.ExpectedFingerprintMD5 ∧
    (rewrite e a).1.ExpectedFingerprintSHA256 = e.ExpectedFingerprintSHA256 ∧
    (rewrite e a).1.Source = e.Source ∧
    (rewrite e a).2.FingerprintMD5 = a.FingerprintMD5 ∧
    (rewrite e a).2.FingerprintSHA256 = a.FingerprintSHA256 := by
  simp only [rewrite, switchExpectedType, ellipticFormat, whompType]
  repeat' split
  all_goals exact ⟨rfl, rfl, rfl, rfl, rfl⟩

/-- The format of the descriptor after the rewriting: only an ed25519 fixture
changes it, and only from `openssh` or `openssh-new`. -/
theorem rewrite_actual_format (e : spec) (a : KeyInfo) :
    (rewrite e a).2.Format =
      if e.Type_ = "ed25519" ∧ (a.Format = "openssh" ∨ a.Format = "openssh-new")
      then "openssh-new" else a.Format := by
  simp only [rewrite, switchExpectedType, ellipticFormat, whompType]
  by_cases h1 : e.Type_ = "rsa"
  · simp [h1]; repeat' split
    all_goals rfl
  · by_cases h2 : e.Type_ = "dsa"
    · simp [h2]; repeat' split
      all_goals rfl
    · by_cases h3 : e.Type_ = "ed25519"
      · by_cases h4 : a.Format = "openssh" ∨ a.Format = "openssh-new"
        · simp [h3, h4]; repeat' split
          all_goals rfl
        · simp [h3, h4]; repeat' split
          all_goals rfl
      · simp [h1, h2, h3]; repeat' split
        all_goals rfl

/-- The expected format of an ed25519 fixture after the rewriting. -/
theorem rewrite_expected_format_ed25519 (e : spec) (a : KeyInfo) (h : e.Type_ = "ed25519") :
    (rewrite e a).1.Format =
      if a.Format = "openssh" ∨ a.Format = "openssh-new" then "openssh-new" else e.Format := by
  simp only [rewrite, switchExpectedType, ellipticFormat, whompType]
  by_cases h4 : a.Format = "openssh" ∨ a.Format = "openssh-new"
  · simp [h, h4]; repeat' split
    all_goals rfl
  · simp [h, h4]; repeat' split
    all_goals rfl

/-- The two types after the rewriting when the descriptor is elliptic. -/
theorem rewrite_type_ecdsa (e : spec) (a : KeyInfo) (h : HasPrefix a.Type_ "ecdsa-" = true) :
    (rewrite e a).1.Type_ = "ecdsa" ∧ (rewrite e a).2.Type_ = "ecdsa" := by
  have h1 : (ellipticFormat (switchExpectedType e a).1 (switchExpectedType e a).2).2.Type_
      = a.Type_ := by
    simp only [switchExpectedType, ellipticFormat]
    repeat' split
    all_goals rfl
  simp only [rewrite, whompType, h1, h]
  exact ⟨rfl, rfl⟩

theorem checkBits_unencrypted (e : spec) (a : KeyInfo) (henc : a.Encrypted = some false)
    (h1 : a.Format ≠ "openssh-new") (h2 : a.Format ≠ "putty") (h3 : a.Format ≠ "sshcom")
    (hn : checkBits e a = none) : e.Bits = a.Bits := by
  unfold checkBits at hn
  have hd : ∀ c, andDeref c a.Encrypted = some false := by
    intro c; cases c <;> simp [andDeref, henc]
  simp only [hd, h1, h2, h3, if_false] at hn
  exact (requireEqual_eq_none _ _ _).1 hn

theorem checkFingerprints_eq_none (e : spec) (a : KeyInfo) (hf : a.Format = "openssh-new")
    (hn : checkFingerprints e a = none) :
    e.ExpectedFingerprintMD5 = a.FingerprintMD5 ∧
    (e.Source ≠ "putty" → e.ExpectedFingerprintSHA256 = a.FingerprintSHA256) := by
  unfold checkFingerprints at hn
  rw [if_pos hf, andThen_eq_none, requireEqual_eq_none] at hn
  refine ⟨hn.2, fun hs => ?_⟩
  have := hn.1
  rw [if_pos hs, requireEqual_eq_none] at this
  exact this


theorem requireEqual_eq_some {α : Type} [DecidableEq α] (x y : α) (f o : Outcome) :
    requireEqual x y f = some o ↔ x ≠ y ∧ f = o := by
  unfold requireEqual; split <;> simp [*]

theorem andThen_eq_some (x y : Option Outcome) (o : Outcome) :
    andThen x y = some o ↔ x = some o ∨ (x = none ∧ y = some o) := by
  cases x <;> simp [andThen]

theorem checkBits_ne_failType (e : spec) (a : KeyInfo) :
    checkBits e a ≠ some Outcome.failType := by
  unfold checkBits
  repeat' split
  all_goals simp [requireEqual_eq_some]

theorem checkFingerprints_ne_failType (e : spec) (a : KeyInfo) :
    checkFingerprints e a ≠ some Outcome.failType := by
  unfold checkFingerprints
  repeat' split
  all_goals simp [andThen_eq_some, requireEqual_eq_some]

theorem checkFinal_ne_failType (e : spec) (a : KeyInfo) (h : e.Type_ = a.Type_) :
    checkFinal e a ≠ some Outcome.failType := by
  unfold checkFinal
  cases a.Encrypted <;> simp [andThen_eq_some, requireEqual_eq_some, h]

theorem compareKeyInfo_ne_failType (e : spec) (a : KeyInfo)
    (h : (rewrite e a).1.Type_ = (rewrite e a).2.Type_) :
    compareKeyInfo e a ≠ Outcome.failType := by
  intro hc
  simp only [compareKeyInfo] at hc
  have h1 := checkBits_ne_failType (rewrite e a).1 (rewrite e a).2
  have h2 := checkFingerprints_ne_failType (rewrite e a).1 (rewrite e a).2
  have h3 := checkFinal_ne_failType (rewrite e a).1 (rewrite e a).2 h
  split at hc
  · next o ho =>
    subst hc
    rw [andThen_eq_some, andThen_eq_some] at ho
    rcases ho with ho | ⟨-, ho | ⟨-, ho⟩⟩
    · exact h1 ho
    · exact h2 ho
    · exact h3 ho
  · cases hc

theorem rewrite_setBits (e : spec) (a : KeyInfo) (bits : Int) :
    rewrite e { a with Bits := bits } = ((rewrite e a).1, { (rewrite e a).2 with Bits := bits }) := by
  simp only [rewrite, switchExpectedType, ellipticFormat, whompType]
  repeat' split
  all_goals rfl

theorem rewrite_setSHA256 (e : spec) (a : KeyInfo) (sha : String) :
    rewrite e { a with FingerprintSHA256 := sha }
      = ((rewrite e a).1, { (rewrite e a).2 with FingerprintSHA256 := sha }) := by
  simp only [rewrite, switchExpectedType, ellipticFormat, whompType]
  repeat' split
  all_goals rfl

theorem checkBits_skipped (e : spec) (a : KeyInfo) (bits : Int)
    (henc : a.Encrypted = some false)
    (hf : a.Format = "openssh-new" ∨ a.Format = "putty" ∨ a.Format = "sshcom") :
    checkBits e { a with Bits := bits } = checkBits e a := by
  have hd : ∀ c, andDeref c (some false) = some false := by
    intro c; cases c <;> rfl
  unfold checkBits
  simp only [henc, hd]
  rcases hf with hf | hf | hf <;> simp [hf]

theorem checkFingerprints_putty (e : spec) (a : KeyInfo) (sha : String)
    (hs : e.Source = "putty") :
    checkFingerprints e { a with FingerprintSHA256 := sha } = checkFingerprints e a := by
  unfold checkFingerprints
  simp [hs]

theorem loaded_constHarness (e : spec) (a : KeyInfo) (path : String) :
    Loaded (constHarness e a) path e a :=
  ⟨"", rfl, rfl, rfl⟩

/-! ## The claims about `testIdentifyFile` -/

/-- C1: `testIdentifyFile` passes only if the descriptor's `Encrypted` is a
non-nil pointer whose value equals the fixture's expected `Encrypted`; a nil
`Encrypted` is never accepted, whatever the other fields are. -/
theorem testIdentifyFile_pass_encrypted (h : Harness) (path : String) (e : spec) (a : KeyInfo)
    (hl : Loaded h path e a) (hp : testIdentifyFile h path = Outcome.pass) :
    a.Encrypted = some e.Encrypted ∧ a.Encrypted ≠ none := by
  rw [testIdentifyFile_of_loaded h path e a hl, compareKeyInfo_pass_iff] at hp
  have hf := ((checkFinal_eq_none _ _).1 hp.2.2).2.2
  rw [rewrite_actual_encrypted, rewrite_expected_encrypted] at hf
  exact ⟨hf, by simp [hf]⟩

theorem testIdentifyFile_pass_encrypted_witness :
    testIdentifyFile (constHarness (rsaSpec "openssh" "openssh") (rsaKeyInfo "openssh" 2048 "SHA256:ref"))
        "testdata/specs/rsa.json" = Outcome.pass ∧
      (rsaKeyInfo "openssh" 2048 "SHA256:ref").Encrypted = some (rsaSpec "openssh" "openssh").Encrypted ∧
      (rsaKeyInfo "openssh" 2048 "SHA256:ref").Encrypted ≠ none :=
  ⟨by decide,
   testIdentifyFile_pass_encrypted
     (constHarness (rsaSpec "openssh" "openssh") (rsaKeyInfo "openssh" 2048 "SHA256:ref"))
     "testdata/specs/rsa.json" (rsaSpec "openssh" "openssh") (rsaKeyInfo "openssh" 2048 "SHA256:ref")
     (loaded_constHarness _ _ _) (by decide)⟩

/-- C2 (amended): for a fixture of an unencrypted RSA or DSA key,
`testIdentifyFile` passes only if the descriptor's `Bits` equals the fixture's
expected `Bits` exactly, provided the descriptor reports a `Format` other than
`openssh-new`, `putty` and `sshcom`; for those three formats the harness does
not compare `Bits`: the run passes with every other value of `Bits` too. -/
theorem testIdentifyFile_pass_bits (h : Harness) (path : String) (e : spec) (a : KeyInfo)
    (hl : Loaded h path e a) (hty : e.Type_ = "rsa" ∨ e.Type_ = "dsa")
    (henc : a.Encrypted = some false)
    (hp : testIdentifyFile h path = Outcome.pass) :
    (a.Format ≠ "openssh-new" ∧ a.Format ≠ "putty" ∧ a.Format ≠ "sshcom" →
      a.Bits = e.Bits) ∧
    (a.Format = "openssh-new" ∨ a.Format = "putty" ∨ a.Format = "sshcom" →
      ∀ bits : Int, compareKeyInfo e { a with Bits := bits } = Outcome.pass) := by
  rw [testIdentifyFile_of_loaded h path e a hl, compareKeyInfo_pass_iff] at hp
  have hne : e.Type_ ≠ "ed25519" := by
    rcases hty with h1 | h1 <;> rw [h1] <;> decide
  have hf : (rewrite e a).2.Format = a.Format := by
    rw [rewrite_actual_format]; simp [hne]
  have henc2 : (rewrite e a).2.Encrypted = some false := by
    rw [rewrite_actual_encrypted]; exact henc
  constructor
  · intro hfmt
    have hb := checkBits_unencrypted _ _ henc2
      (by rw [hf]; exact hfmt.1) (by rw [hf]; exact hfmt.2.1) (by rw [hf]; exact hfmt.2.2) hp.1
    rw [(rewrite_bits e a).1, (rewrite_bits e a).2] at hb
    exact hb.symm
  · intro hfmt bits
    rw [compareKeyInfo_pass_iff, rewrite_setBits]
    refine ⟨?_, hp.2.1, hp.2.2⟩
    rw [checkBits_skipped _ _ bits henc2 (by rw [hf]; exact hfmt)]
    exact hp.1

theorem testIdentifyFile_pass_bits_witness :
    testIdentifyFile (constHarness (rsaSpec "openssh" "openssh")
        (rsaKeyInfo "openssh" 2048 "SHA256:ref")) "testdata/specs/rsa.json" = Outcome.pass ∧
      (rsaKeyInfo "openssh" 2048 "SHA256:ref").Bits = (rsaSpec "openssh" "openssh").Bits :=
  ⟨by decide,
   (testIdentifyFile_pass_bits
     (constHarness (rsaSpec "openssh" "openssh") (rsaKeyInfo "openssh" 2048 "SHA256:ref"))
     "testdata/specs/rsa.json" (rsaSpec "openssh" "openssh")
     (rsaKeyInfo "openssh" 2048 "SHA256:ref")
     (loaded_constHarness _ _ _) (Or.inl rfl) rfl (by decide)).1 (by decide)⟩

/-- C2 as stated fails: an unencrypted RSA fixture expecting 2048 bits accepts a
descriptor of 1024 bits when the descriptor's format is `openssh-new`, `putty`
or `sshcom`. -/
theorem testIdentifyFile_bits_unchecked :
    (rsaSpec "openssh-new" "openssh").Type_ = "rsa" ∧ (rsaSpec "openssh-new" "openssh").Bits = 2048 ∧
    (rsaKeyInfo "openssh-new" 1024 "SHA256:ref").Encrypted = some false ∧
    (rsaKeyInfo "openssh-new" 1024 "SHA256:ref").Bits = 1024 ∧
    testIdentifyFile (constHarness (rsaSpec "openssh-new" "openssh")
      (rsaKeyInfo "openssh-new" 1024 "SHA256:ref")) "testdata/specs/rsa.json" = Outcome.pass ∧
    testIdentifyFile (constHarness (rsaSpec "putty" "openssh")
      (rsaKeyInfo "putty" 1024 "SHA256:ref")) "testdata/specs/rsa.json" = Outcome.pass ∧
    testIdentifyFile (constHarness (rsaSpec "sshcom" "openssh")
      (rsaKeyInfo "sshcom" 1024 "SHA256:ref")) "testdata/specs/rsa.json" = Outcome.pass := by
  decide


/-- C3 (amended): when the returned descriptor has format `openssh-new`,
`testIdentifyFile` passes only if the descriptor's `FingerprintMD5` equals the
fixture's `ExpectedFingerprintMD5` and, for every fixture whose `Source` is not
`putty`, its `FingerprintSHA256` equals the fixture's
`ExpectedFingerprintSHA256`; for `Source` `putty` the SHA256 fingerprint is not
compared: the run passes with every other SHA256 fingerprint too. -/
theorem testIdentifyFile_pass_fingerprints (h : Harness) (path : String) (e : spec)
    (a : KeyInfo) (hl : Loaded h path e a) (hfmt : a.Format = "openssh-new")
    (hp : testIdentifyFile h path = Outcome.pass) :
    a.FingerprintMD5 = e.ExpectedFingerprintMD5 ∧
    (e.Source ≠ "putty" → a.FingerprintSHA256 = e.ExpectedFingerprintSHA256) ∧
    (e.Source = "putty" →
      ∀ sha : String, compareKeyInfo e { a with FingerprintSHA256 := sha } = Outcome.pass) := by
  rw [testIdentifyFile_of_loaded h path e a hl, compareKeyInfo_pass_iff] at hp
  have hf : (rewrite e a).2.Format = "openssh-new" := by
    rw [rewrite_actual_format]; simp [hfmt]
  have hc := checkFingerprints_eq_none _ _ hf hp.2.1
  obtain ⟨r1, r2, r3, r4, r5⟩ := rewrite_fingerprints e a
  rw [r1, r2, r3, r4, r5] at hc
  refine ⟨hc.1.symm, fun hs => (hc.2 hs).symm, fun hs sha => ?_⟩
  rw [compareKeyInfo_pass_iff, rewrite_setSHA256]
  refine ⟨hp.1, ?_, hp.2.2⟩
  rw [checkFingerprints_putty _ _ sha (r3.trans hs)]
  exact hp.2.1

theorem testIdentifyFile_pass_fingerprints_witness :
    testIdentifyFile (constHarness (rsaSpec "openssh-new" "openssh")
        (rsaKeyInfo "openssh-new" 2048 "SHA256:ref")) "testdata/specs/rsa.json" = Outcome.pass ∧
      (rsaKeyInfo "openssh-new" 2048 "SHA256:ref").FingerprintMD5
        = (rsaSpec "openssh-new" "openssh").ExpectedFingerprintMD5 ∧
      (rsaKeyInfo "openssh-new" 2048 "SHA256:ref").FingerprintSHA256
        = (rsaSpec "openssh-new" "openssh").ExpectedFingerprintSHA256 :=
  have w := testIdentifyFile_pass_fingerprints
     (constHarness (rsaSpec "openssh-new" "openssh") (rsaKeyInfo "openssh-new" 2048 "SHA256:ref"))
     "testdata/specs/rsa.json" (rsaSpec "openssh-new" "openssh")
     (rsaKeyInfo "openssh-new" 2048 "SHA256:ref")
     (loaded_constHarness _ _ _) rfl (by decide)
  ⟨by decide, w.1, w.2.1 (by decide)⟩

/-- C3 as stated fails: a fixture whose `Source` is `putty` accepts an
`openssh-new` descriptor whose SHA256 fingerprint differs from the expected
one. -/
theorem testIdentifyFile_sha256_unchecked_for_putty :
    (rsaKeyInfo "openssh-new" 2048 "SHA256:other").Format = "openssh-new" ∧
    (rsaSpec "openssh-new" "putty").Source = "putty" ∧
    (rsaKeyInfo "openssh-new" 2048 "SHA256:other").FingerprintSHA256
      ≠ (rsaSpec "openssh-new" "putty").ExpectedFingerprintSHA256 ∧
    testIdentifyFile (constHarness (rsaSpec "openssh-new" "putty")
      (rsaKeyInfo "openssh-new" 2048 "SHA256:other")) "testdata/specs/rsa.json"
      = Outcome.pass := by
  decide

/-- C4 (amended): for a fixture whose expected type is `ed25519` and a
descriptor that `testIdentifyFile` accepts for it, the format `IdentifyFile`
returned is `openssh-new` or `openssh` (the harness rewrites both sides to
`openssh-new`), or else it equals the fixture's own expected format. -/
theorem testIdentifyFile_pass_ed25519_format (h : Harness) (path : String) (e : spec)
    (a : KeyInfo) (hl : Loaded h path e a) (hty : e.Type_ = "ed25519")
    (hp : testIdentifyFile h path = Outcome.pass) :
    a.Format = "openssh-new" ∨ a.Format = "openssh" ∨ a.Format = e.Format := by
  rw [testIdentifyFile_of_loaded h path e a hl, compareKeyInfo_pass_iff] at hp
  have hf := ((checkFinal_eq_none _ _).1 hp.2.2).1
  rw [rewrite_actual_format, rewrite_expected_format_ed25519 e a hty] at hf
  by_cases h4 : a.Format = "openssh" ∨ a.Format = "openssh-new"
  · rcases h4 with h4 | h4
    · exact Or.inr (Or.inl h4)
    · exact Or.inl h4
  · simp only [h4, hty, and_false, if_false] at hf
    exact Or.inr (Or.inr hf.symm)

theorem testIdentifyFile_pass_ed25519_format_witness :
    testIdentifyFile (constHarness (ed25519Spec "openssh-new") (ed25519KeyInfo "openssh-new"))
        "testdata/specs/ed25519.json" = Outcome.pass ∧
      ((ed25519KeyInfo "openssh-new").Format = "openssh-new" ∨
        (ed25519KeyInfo "openssh-new").Format = "openssh" ∨
        (ed25519KeyInfo "openssh-new").Format = (ed25519Spec "openssh-new").Format) :=
  ⟨by decide,
   testIdentifyFile_pass_ed25519_format
     (constHarness (ed25519Spec "openssh-new") (ed25519KeyInfo "openssh-new"))
     "testdata/specs/ed25519.json" (ed25519Spec "openssh-new") (ed25519KeyInfo "openssh-new")
     (loaded_constHarness _ _ _) rfl (by decide)⟩

/-- C4 as stated fails: an ed25519 fixture accepts a descriptor that
`IdentifyFile` returned with format `openssh`, and one returned with format
`putty` when the fixture expects `putty`. -/
theorem testIdentifyFile_ed25519_not_only_openssh_new :
    (ed25519Spec "openssh-new").Type_ = "ed25519" ∧
    (ed25519KeyInfo "openssh").Format ≠ "openssh-new" ∧
    testIdentifyFile (constHarness (ed25519Spec "openssh-new") (ed25519KeyInfo "openssh"))
      "testdata/specs/ed25519.json" = Outcome.pass ∧
    (ed25519Spec "putty").Type_ = "ed25519" ∧
    (ed25519KeyInfo "putty").Format ≠ "openssh-new" ∧
    testIdentifyFile (constHarness (ed25519Spec "putty") (ed25519KeyInfo "putty"))
      "testdata/specs/ed25519.json" = Outcome.pass := by
  decide

/-- C5: the family-level normalisation maps every descriptor type that begins
with `ecdsa-` (so each of the three curve names) to exactly `ecdsa`, leaves
every other descriptor type unchanged, and applying it twice is the same as
applying it once. -/
theorem whompType_family (e : spec) (a : KeyInfo) :
    (whompType e a).2.Type_ = (if HasPrefix a.Type_ "ecdsa-" then "ecdsa" else a.Type_) ∧
    (∀ suffix : String, (whompType e { a with Type_ := "ecdsa-" ++ suffix }).2.Type_ = "ecdsa") ∧
    (whompType e { a with Type_ := "ecdsa-sha2-nistp256" }).2.Type_ = "ecdsa" ∧
    (whompType e { a with Type_ := "ecdsa-sha2-nistp384" }).2.Type_ = "ecdsa" ∧
    (whompType e { a with Type_ := "ecdsa-sha2-nistp521" }).2.Type_ = "ecdsa" ∧
    whompType (whompType e a).1 (whompType e a).2 = whompType e a := by
  have hsuf : ∀ suffix : String,
      (whompType e { a with Type_ := "ecdsa-" ++ suffix }).2.Type_ = "ecdsa" := by
    intro suffix
    have hp : HasPrefix ("ecdsa-" ++ suffix) "ecdsa-" = true :=
      (hasPrefix_iff _ _).2 ⟨suffix, rfl⟩
    simp [whompType, hp]
  refine ⟨?_, hsuf, hsuf "sha2-nistp256", hsuf "sha2-nistp384", hsuf "sha2-nistp521", ?_⟩
  · unfold whompType; split <;> rfl
  · unfold whompType
    split
    · simp [not_hasPrefix_ecdsa]
    · simp [*]

/-- C9: when the descriptor's type begins with `ecdsa-`, both the expected and
the actual type are `ecdsa` when the assertions start, so the `Type` equality
check holds and the run never stops at it, whatever the fixture's expected
type is. -/
theorem testIdentifyFile_ecdsa_type_check (h : Harness) (path : String) (e : spec)
    (a : KeyInfo) (hl : Loaded h path e a) (hpre : HasPrefix a.Type_ "ecdsa-" = true) :
    (rewrite e a).1.Type_ = "ecdsa" ∧ (rewrite e a).2.Type_ = "ecdsa" ∧
      requireEqual (rewrite e a).1.Type_ (rewrite e a).2.Type_ Outcome.failType = none ∧
      testIdentifyFile h path ≠ Outcome.failType ∧
      (∀ t : String, compareKeyInfo { e with Type_ := t } a ≠ Outcome.failType) := by
  obtain ⟨h1, h2⟩ := rewrite_type_ecdsa e a hpre
  have hall : ∀ t : String, compareKeyInfo { e with Type_ := t } a ≠ Outcome.failType := by
    intro t
    obtain ⟨t1, t2⟩ := rewrite_type_ecdsa { e with Type_ := t } a hpre
    exact compareKeyInfo_ne_failType _ a (t1.trans t2.symm)
  refine ⟨h1, h2, (requireEqual_eq_none _ _ _).2 (h1.trans h2.symm), ?_, hall⟩
  rw [testIdentifyFile_of_loaded h path e a hl]
  exact compareKeyInfo_ne_failType e a (h1.trans h2.symm)

theorem testIdentifyFile_ecdsa_type_check_witness :
    HasPrefix ecdsaKeyInfo.Type_ "ecdsa-" = true ∧
      (rewrite (rsaSpec "openssh" "openssh") ecdsaKeyInfo).1.Type_ = "ecdsa" ∧
      (rewrite (rsaSpec "openssh" "openssh") ecdsaKeyInfo).2.Type_ = "ecdsa" ∧
      requireEqual (rewrite (rsaSpec "openssh" "openssh") ecdsaKeyInfo).1.Type_
        (rewrite (rsaSpec "openssh" "openssh") ecdsaKeyInfo).2.Type_ Outcome.failType = none ∧
      testIdentifyFile (constHarness (rsaSpec "openssh" "openssh") ecdsaKeyInfo)
        "testdata/specs/rsa.json" ≠ Outcome.failType ∧
      (∀ t : String, compareKeyInfo { rsaSpec "openssh" "openssh" with Type_ := t } ecdsaKeyInfo
        ≠ Outcome.failType) :=
  ⟨by decide,
   testIdentifyFile_ecdsa_type_check (constHarness (rsaSpec "openssh" "openssh") ecdsaKeyInfo)
     "testdata/specs/rsa.json" (rsaSpec "openssh" "openssh") ecdsaKeyInfo
     (loaded_constHarness _ _ _) (by decide)⟩

end KeyIdentifier

namespace Assets

/-- The six registered names, in the order of the source. -/
theorem bindata_keys : _bindata.map Prod.fst =
    ["internal/assets/logrotate.conf", "internal/assets/postinstall-init.sh",
     "internal/assets/postinstall-launchd.sh", "internal/assets/postinstall-systemd.sh",
     "internal/assets/postinstall-upstart.sh", "internal/assets/preinstall-darwin.sh"] := rfl

theorem lookup_eq_none_iff {β : Type} (k : String) (l : List (String × β)) :
    l.lookup k = none ↔ k ∉ l.map Prod.fst := by
  induction l with
  | nil => simp
  | cons p l ih =>
    obtain ⟨a, b⟩ := p
    by_cases h : k = a
    · subst h; simp [List.lookup]
    · have h2 : (k == a) = false := by simpa using h
      simp [List.lookup, h2, ih, h]

theorem lookup_mem {β : Type} (k : String) (l : List (String × β)) (f : β)
    (h : l.lookup k = some f) : (k, f) ∈ l := by
  induction l with
  | nil => simp at h
  | cons p l ih =>
    obtain ⟨a, b⟩ := p
    by_cases h1 : k = a
    · subst h1; simp [List.lookup] at h; simp [h]
    · have h2 : (k == a) = false := by simpa using h1
      simp [List.lookup, h2] at h
      exact List.mem_cons_of_mem _ (ih h)

/-- No generator of the table ever returns an error. -/
theorem bindata_generators_ok (k : String) (f : AssetFunc) (h : (k, f) ∈ _bindata) :
    ∃ a, f () = .ok a := by
  simp only [_bindata, List.mem_cons, Prod.mk.injEq, List.mem_singleton, List.not_mem_nil,
    or_false] at h
  rcases h with ⟨-, rfl⟩ | ⟨-, rfl⟩ | ⟨-, rfl⟩ | ⟨-, rfl⟩ | ⟨-, rfl⟩ | ⟨-, rfl⟩
  all_goals exact ⟨_, rfl⟩

theorem notFound_ne_cantRead (name err : String) :
    assetNotFound name ≠ assetCantRead name err := by
  intro h
  have h2 := congrArg String.data h
  simp only [assetNotFound, assetCantRead, String.data_append, List.append_assoc] at h2
  have h3 := List.append_cancel_left (List.append_cancel_left h2)
  revert h3
  simp


theorem Asset_of_lookup_none (name : String)
    (h : _bindata.lookup (Replace name '\\' '/') = none) :
    Asset name = .error (assetNotFound name) := by
  simp only [Asset, h]

theorem Asset_of_lookup_some (name : String) (f : AssetFunc)
    (h : _bindata.lookup (Replace name '\\' '/') = some f) :
    ∃ a, f () = .ok a ∧ Asset name = .ok a.bytes := by
  obtain ⟨a, ha⟩ := bindata_generators_ok _ f (lookup_mem _ _ _ h)
  exact ⟨a, ha, by simp only [Asset, h, ha]⟩

/-- C6: `Asset(name)` returns the embedded bytes and no error exactly when
`name`, with every backslash replaced by a slash, is one of the six registered
keys; for every other name it returns the error `Asset <name> not found` with
the original name; it never returns the `can't read by error` error. -/
theorem Asset_found_iff_registered (name : String) :
    ((∃ bytes, Asset name = .ok bytes) ↔
      Replace name '\\' '/' ∈
        ["internal/assets/logrotate.conf", "internal/assets/postinstall-init.sh",
         "internal/assets/postinstall-launchd.sh", "internal/assets/postinstall-systemd.sh",
         "internal/assets/postinstall-upstart.sh", "internal/assets/preinstall-darwin.sh"]) ∧
    (∀ key content,
      (key, content) ∈
        [("internal/assets/logrotate.conf", _internalAssetsLogrotateConf),
         ("internal/assets/postinstall-init.sh", _internalAssetsPostinstallInitSh),
         ("internal/assets/postinstall-launchd.sh", _internalAssetsPostinstallLaunchdSh),
         ("internal/assets/postinstall-systemd.sh", _internalAssetsPostinstallSystemdSh),
         ("internal/assets/postinstall-upstart.sh", _internalAssetsPostinstallUpstartSh),
         ("internal/assets/preinstall-darwin.sh", _internalAssetsPreinstallDarwinSh)] →
      Replace name '\\' '/' = key → Asset name = .ok content) ∧
    (Replace name '\\' '/' ∉
        ["internal/assets/logrotate.conf", "internal/assets/postinstall-init.sh",
         "internal/assets/postinstall-launchd.sh", "internal/assets/postinstall-systemd.sh",
         "internal/assets/postinstall-upstart.sh", "internal/assets/preinstall-darwin.sh"] →
      Asset name = .error ("Asset " ++ name ++ " not found")) ∧
    (∀ err, Asset name ≠ .error ("Asset " ++ name ++ " can\x27t read by error: " ++ err)) := by
  rw [← bindata_keys]
  have hnone : Replace name '\\' '/' ∉ _bindata.map Prod.fst →
      Asset name = .error (assetNotFound name) :=
    fun h => Asset_of_lookup_none name ((lookup_eq_none_iff _ _).2 h)
  have hsome : Replace name '\\' '/' ∈ _bindata.map Prod.fst → ∃ bytes, Asset name = .ok bytes := by
    intro h
    cases hl : _bindata.lookup (Replace name '\\' '/') with
    | none => exact absurd h ((lookup_eq_none_iff _ _).1 hl)
    | some f =>
      obtain ⟨a, -, ha⟩ := Asset_of_lookup_some name f hl
      exact ⟨a.bytes, ha⟩
  refine ⟨⟨fun ⟨bytes, hb⟩ => ?_, hsome⟩, ?_, hnone, fun err => ?_⟩
  · by_contra hmem
    rw [hnone hmem] at hb
    cases hb
  · intro key content hmem hkey
    simp only [List.mem_cons, Prod.mk.injEq, List.mem_singleton, List.not_mem_nil,
      or_false] at hmem
    rcases hmem with ⟨rfl, rfl⟩ | ⟨rfl, rfl⟩ | ⟨rfl, rfl⟩ | ⟨rfl, rfl⟩ | ⟨rfl, rfl⟩ | ⟨rfl, rfl⟩
    all_goals
      simp only [Asset, hkey]
      rfl
  · by_cases hmem : Replace name '\\' '/' ∈ _bindata.map Prod.fst
    · obtain ⟨bytes, hb⟩ := hsome hmem
      rw [hb]
      exact fun h => by cases h
    · rw [hnone hmem]
      intro h
      exact notFound_ne_cantRead name err (Except.error.inj h)


theorem splitChars_ne_nil (sep : Char) (l : List Char) : splitChars sep l ≠ [] := by
  induction l with
  | nil => simp [splitChars]
  | cons c cs ih =>
    unfold splitChars
    split
    · simp
    · split <;> simp

/-- Joining the pieces with the separator gives the sequence back. -/
theorem joinChars_splitChars (sep : Char) (l : List Char) :
    joinChars sep (splitChars sep l) = l := by
  induction l with
  | nil => simp [splitChars, joinChars]
  | cons c cs ih =>
    unfold splitChars
    split
    · next h =>
      cases hs : splitChars sep cs with
      | nil => exact absurd hs (splitChars_ne_nil sep cs)
      | cons w ws =>
        rw [hs] at ih
        simp [joinChars, ih, h]
    · cases hs : splitChars sep cs with
      | nil => exact absurd hs (splitChars_ne_nil sep cs)
      | cons w ws =>
        rw [hs] at ih
        cases ws with
        | nil => simpa [joinChars] using ih
        | cons w2 ws2 =>
          simp only [joinChars] at ih ⊢
          simp [ih]


theorem eq_of_Split (c : String) (L : List String) (h : Split c '/' = L) :
    c = ⟨joinChars '/' (L.map String.data)⟩ := by
  subst h
  apply String.ext
  simp only [Split, List.map_map]
  have : (String.data ∘ String.mk) = id := by funext x; rfl
  rw [this, List.map_id, joinChars_splitChars]

theorem Split_ne_nil (c : String) : Split c '/' ≠ [] := by
  simp [Split, splitChars_ne_nil]

theorem descend_eq_nodeAt (name : String) (node : bintree) (ps : List String) :
    descend name node ps =
      match nodeAt node ps with
      | some n => .ok n
      | none => .error (assetNotFound name) := by
  induction ps generalizing node with
  | nil => rfl
  | cons p ps ih =>
    simp only [descend, nodeAt]
    cases node.Children.lookup p with
    | none => rfl
    | some child => exact ih child

/-- The nodes below `internal/assets` are files without children. -/
theorem file_nodes (p : String) (child : bintree)
    (h : List.lookup p
      [("logrotate.conf", bintree.mk (some internalAssetsLogrotateConf) []),
       ("postinstall-init.sh", bintree.mk (some internalAssetsPostinstallInitSh) []),
       ("postinstall-launchd.sh", bintree.mk (some internalAssetsPostinstallLaunchdSh) []),
       ("postinstall-systemd.sh", bintree.mk (some internalAssetsPostinstallSystemdSh) []),
       ("postinstall-upstart.sh", bintree.mk (some internalAssetsPostinstallUpstartSh) []),
       ("preinstall-darwin.sh", bintree.mk (some internalAssetsPreinstallDarwinSh) [])]
      = some child) :
    child.Func.isSome = true ∧ child.Children = [] := by
  have hm := lookup_mem _ _ _ h
  simp only [List.mem_cons, Prod.mk.injEq, List.mem_singleton, List.not_mem_nil,
    or_false] at hm
  rcases hm with ⟨-, rfl⟩ | ⟨-, rfl⟩ | ⟨-, rfl⟩ | ⟨-, rfl⟩ | ⟨-, rfl⟩ | ⟨-, rfl⟩
  all_goals exact ⟨rfl, rfl⟩

/-- The walk from the root: which component lists reach a node, and what kind
of node it is. -/
theorem nodeAt_root (L : List String) :
    (L = [] ∧ nodeAt _bintree L = some _bintree) ∨
    (L = ["internal"] ∧ ∃ n, nodeAt _bintree L = some n ∧ n.Func = none ∧
      n.Children.map Prod.fst = ["assets"]) ∨
    (L = ["internal", "assets"] ∧ ∃ n, nodeAt _bintree L = some n ∧ n.Func = none ∧
      n.Children.map Prod.fst =
        ["logrotate.conf", "postinstall-init.sh", "postinstall-launchd.sh",
         "postinstall-systemd.sh", "postinstall-upstart.sh", "preinstall-darwin.sh"]) ∨
    (∃ n, nodeAt _bintree L = some n ∧ n.Func.isSome = true) ∨
    nodeAt _bintree L = none := by
  cases L with
  | nil => exact Or.inl ⟨rfl, rfl⟩
  | cons p1 r1 =>
    by_cases h1 : p1 = "internal"
    swap
    · have hb : (p1 == "internal") = false := by simpa using h1
      right; right; right; right
      simp [nodeAt, _bintree, bintree.Children, List.lookup, hb]
    subst h1
    cases r1 with
    | nil => exact Or.inr (Or.inl ⟨rfl, _, rfl, rfl, rfl⟩)
    | cons p2 r2 =>
      by_cases h2 : p2 = "assets"
      swap
      · have hb : (p2 == "assets") = false := by simpa using h2
        right; right; right; right
        simp [nodeAt, _bintree, bintree.Children, List.lookup, hb]
      subst h2
      cases r2 with
      | nil => exact Or.inr (Or.inr (Or.inl ⟨rfl, _, rfl, rfl, rfl⟩))
      | cons p3 r3 =>
        right; right; right
        simp only [nodeAt, _bintree, bintree.Children, List.lookup, beq_self_eq_true]
        split
        · exact Or.inr rfl
        · next child hc =>
          obtain ⟨hf, hch⟩ := file_nodes p3 child hc
          cases r3 with
          | nil => exact Or.inl ⟨child, rfl, hf⟩
          | cons p4 r4 =>
            right
            simp [nodeAt, hch]


theorem Replace_eq_empty (name : String) (a b : Char) : Replace name a b = "" ↔ name = "" := by
  constructor
  · intro h
    have h2 := congrArg String.data h
    simp only [Replace] at h2
    apply String.ext
    simpa using h2
  · rintro rfl; rfl

/-- Function `AssetDir` is the walk over the components followed by the test for a
directory node. -/
theorem AssetDir_eq_nodeAt (o : MapOrder) (name : String) :
    AssetDir o name =
      match nodeAt _bintree (pathComponents name) with
      | some node =>
        if node.Func.isSome then .error ("Asset " ++ name ++ " not found")
        else .ok (o.order (node.Children.map Prod.fst))
      | none => .error ("Asset " ++ name ++ " not found") := by
  unfold AssetDir pathComponents
  by_cases h : name = ""
  · subst h; rfl
  · simp only [h, ne_eq, not_false_eq_true, if_true, if_false, descend_eq_nodeAt]
    cases nodeAt _bintree (Split (Replace name '\\' '/') '/') <;> rfl

theorem order_singleton (o : MapOrder) (a : String) : o.order [a] = [a] :=
  List.perm_singleton.1 (o.perm [a])

theorem AssetDir_components (o : MapOrder) (name : String) :
    (pathComponents name = [] → AssetDir o name = .ok ["internal"]) ∧
    (pathComponents name = ["internal"] → AssetDir o name = .ok ["assets"]) ∧
    (pathComponents name = ["internal", "assets"] →
      AssetDir o name = .ok (o.order
        ["logrotate.conf", "postinstall-init.sh", "postinstall-launchd.sh",
         "postinstall-systemd.sh", "postinstall-upstart.sh", "preinstall-darwin.sh"])) ∧
    (pathComponents name ∉ [[], ["internal"], ["internal", "assets"]] →
      AssetDir o name = .error ("Asset " ++ name ++ " not found")) := by
  rw [AssetDir_eq_nodeAt]
  refine ⟨fun h => ?_, fun h => ?_, fun h => ?_, fun h => ?_⟩
  · rw [h]; simp [nodeAt, _bintree, bintree.Func, bintree.Children, order_singleton]
  · rw [h]
    simp [nodeAt, _bintree, bintree.Func, bintree.Children, order_singleton, List.lookup]
  · rw [h]
    simp [nodeAt, _bintree, bintree.Func, bintree.Children, List.lookup]
  · rcases nodeAt_root (pathComponents name) with
      ⟨h1, -⟩ | ⟨h1, -⟩ | ⟨h1, -⟩ | ⟨n, hn, hf⟩ | hn
    · simp [h1] at h
    · simp [h1] at h
    · simp [h1] at h
    · simp [hn, hf]
    · simp [hn]

theorem pathComponents_cases (name : String) :
    (pathComponents name = [] ↔ Replace name '\\' '/' = "") ∧
    (pathComponents name = ["internal"] ↔ Replace name '\\' '/' = "internal") ∧
    (pathComponents name = ["internal", "assets"] ↔
      Replace name '\\' '/' = "internal/assets") := by
  unfold pathComponents
  by_cases h : name = ""
  · subst h
    refine ⟨⟨fun _ => rfl, fun _ => by simp⟩, ⟨fun h => by simp at h, fun h => ?_⟩,
      ⟨fun h => by simp at h, fun h => ?_⟩⟩
    · exact absurd h (by decide)
    · exact absurd h (by decide)
  · have hc : Replace name '\\' '/' ≠ "" := fun hc => h ((Replace_eq_empty _ _ _).1 hc)
    simp only [h, if_false]
    refine ⟨⟨fun hs => absurd hs (Split_ne_nil _), fun hs => absurd hs hc⟩,
      ⟨fun hs => ?_, fun hs => ?_⟩, ⟨fun hs => ?_, fun hs => ?_⟩⟩
    · rw [eq_of_Split _ _ hs]; rfl
    · rw [hs]; decide
    · rw [eq_of_Split _ _ hs]; rfl
    · rw [hs]; decide

/-- The result of `AssetDir` for every name, by its canonical form. -/
theorem AssetDir_cases (o : MapOrder) (name : String) :
    (Replace name '\\' '/' = "" → AssetDir o name = .ok ["internal"]) ∧
    (Replace name '\\' '/' = "internal" → AssetDir o name = .ok ["assets"]) ∧
    (Replace name '\\' '/' = "internal/assets" →
      AssetDir o name = .ok (o.order
        ["logrotate.conf", "postinstall-init.sh", "postinstall-launchd.sh",
         "postinstall-systemd.sh", "postinstall-upstart.sh", "preinstall-darwin.sh"])) ∧
    (Replace name '\\' '/' ∉ ["", "internal", "internal/assets"] →
      AssetDir o name = .error ("Asset " ++ name ++ " not found")) := by
  obtain ⟨c1, c2, c3, c4⟩ := AssetDir_components o name
  obtain ⟨p1, p2, p3⟩ := pathComponents_cases name
  refine ⟨fun h => c1 (p1.2 h), fun h => c2 (p2.2 h), fun h => c3 (p3.2 h), fun h => c4 ?_⟩
  intro hm
  apply h
  simp only [List.mem_cons, List.mem_singleton, List.not_mem_nil, or_false] at hm ⊢
  rcases hm with hm | hm | hm
  · exact Or.inl (p1.1 hm)
  · exact Or.inr (Or.inl (p2.1 hm))
  · exact Or.inr (Or.inr (p3.1 hm))

/-- C7: `AssetDir(name)` walks the slash-separated components of `name`
(backslashes replaced, the empty name being the root) and returns the names of
the children of the node it reaches exactly when that node is a directory; it
returns `Asset <name> not found` when a component is missing or the node is a
file.  On this tree the directories are the root (child `internal`),
`internal` (child `assets`) and `internal/assets` (the six file names, in the
order of the map iteration). -/
theorem AssetDir_spec (o : MapOrder) (name : String) :
    (AssetDir o name =
      match nodeAt _bintree (pathComponents name) with
      | some node =>
        if node.Func.isSome then .error ("Asset " ++ name ++ " not found")
        else .ok (o.order (node.Children.map Prod.fst))
      | none => .error ("Asset " ++ name ++ " not found")) ∧
    (Replace name '\\' '/' = "" → AssetDir o name = .ok ["internal"]) ∧
    (Replace name '\\' '/' = "internal" → AssetDir o name = .ok ["assets"]) ∧
    (Replace name '\\' '/' = "internal/assets" →
      ∃ l, AssetDir o name = .ok l ∧
        l.Perm ["logrotate.conf", "postinstall-init.sh", "postinstall-launchd.sh",
          "postinstall-systemd.sh", "postinstall-upstart.sh", "preinstall-darwin.sh"]) ∧
    (Replace name '\\' '/' ∉ ["", "internal", "internal/assets"] →
      AssetDir o name = .error ("Asset " ++ name ++ " not found")) ∧
    AssetDir o "" = .ok ["internal"] ∧
    (∃ l, AssetDir o "internal/assets" = .ok l ∧
        l.Perm ["logrotate.conf", "postinstall-init.sh", "postinstall-launchd.sh",
          "postinstall-systemd.sh", "postinstall-upstart.sh", "preinstall-darwin.sh"]) ∧
    AssetDir o "internal/assets/logrotate.conf"
      = .error "Asset internal/assets/logrotate.conf not found" ∧
    AssetDir o "notexist" = .error "Asset notexist not found" := by
  have key := AssetDir_cases o
  have k3 : ∀ n : String, Replace n '\\' '/' = "internal/assets" →
      ∃ l, AssetDir o n = .ok l ∧
        l.Perm ["logrotate.conf", "postinstall-init.sh", "postinstall-launchd.sh",
          "postinstall-systemd.sh", "postinstall-upstart.sh", "preinstall-darwin.sh"] :=
    fun n h => ⟨_, (key n).2.2.1 h, o.perm _⟩
  refine ⟨AssetDir_eq_nodeAt o name, (key name).1, (key name).2.1, k3 name, (key name).2.2.2,
    (key "").1 rfl, k3 "internal/assets" (by decide),
    (key "internal/assets/logrotate.conf").2.2.2 (by decide),
    (key "notexist").2.2.2 (by decide)⟩


theorem RestoreAsset_ok {σ : Type} (fs : FileSys σ) (hfs : fs.Succeeds) (dir name : String)
    (s : σ) (data : String) (info : bindataFileInfo) (h1 : Asset name = .ok data)
    (h2 : AssetInfo name = .ok info) : (RestoreAsset fs dir name s).1 = none := by
  obtain ⟨hm, hw, hc⟩ := hfs
  have e1 := hm (_filePath dir (Dir name)) 0o755 s
  rcases hr1 : fs.MkdirAll (_filePath dir (Dir name)) 0o755 s with ⟨r1, s1⟩
  rw [hr1] at e1
  have e2 := hw (_filePath dir name) data info.mode s1
  rcases hr2 : fs.WriteFile (_filePath dir name) data info.mode s1 with ⟨r2, s2⟩
  rw [hr2] at e2
  have e3 := hc (_filePath dir name) info.modTime info.modTime s2
  rcases hr3 : fs.Chtimes (_filePath dir name) info.modTime info.modTime s2 with ⟨r3, s3⟩
  rw [hr3] at e3
  simp only at e1 e2 e3
  subst e1 e2 e3
  simp only [RestoreAsset, h1, h2, hr1, hr2, hr3]

/-- Each of the six paths below `internal/assets` is a registered asset and no
directory. -/
theorem file_path_facts (o : MapOrder) (f : String)
    (hf : f ∈ ["logrotate.conf", "postinstall-init.sh", "postinstall-launchd.sh",
      "postinstall-systemd.sh", "postinstall-upstart.sh", "preinstall-darwin.sh"]) :
    Join ["internal/assets", f] = "internal/assets/" ++ f ∧
    (∃ err, AssetDir o ("internal/assets/" ++ f) = .error err) ∧
    (∃ data, Asset ("internal/assets/" ++ f) = .ok data) ∧
    (∃ info, AssetInfo ("internal/assets/" ++ f) = .ok info) := by
  simp only [List.mem_cons, List.mem_singleton, List.not_mem_nil, or_false] at hf
  rcases hf with rfl | rfl | rfl | rfl | rfl | rfl
  all_goals
    refine ⟨by decide, ⟨_, (AssetDir_cases o _).2.2.2 (by decide)⟩, ⟨_, rfl⟩, ⟨_, rfl⟩⟩

theorem RestoreAssets_file {σ : Type} (o : MapOrder) (fs : FileSys σ) (hfs : fs.Succeeds)
    (dir f : String)
    (hf : f ∈ ["logrotate.conf", "postinstall-init.sh", "postinstall-launchd.sh",
      "postinstall-systemd.sh", "postinstall-upstart.sh", "preinstall-darwin.sh"])
    (fuel : Nat) (st : RestoreState σ) :
    RestoreAssets o fs dir (fuel + 1) (Join ["internal/assets", f]) st
      = some (none, ((RestoreAsset fs dir ("internal/assets/" ++ f) st.1).2,
          st.2 ++ [(dir, "internal/assets/" ++ f)])) := by
  obtain ⟨hj, ⟨err, hd⟩, ⟨data, ha⟩, ⟨info, hi⟩⟩ := file_path_facts o f hf
  rw [hj]
  simp only [RestoreAssets, hd]
  rw [RestoreAsset_ok fs hfs dir _ st.1 data info ha hi]

theorem restoreChildren_files {σ : Type} (o : MapOrder) (fs : FileSys σ) (hfs : fs.Succeeds)
    (dir : String) (fuel : Nat) (l : List String)
    (hl : ∀ f ∈ l, f ∈ ["logrotate.conf", "postinstall-init.sh", "postinstall-launchd.sh",
      "postinstall-systemd.sh", "postinstall-upstart.sh", "preinstall-darwin.sh"])
    (st : RestoreState σ) :
    restoreChildren (RestoreAssets o fs dir (fuel + 1)) "internal/assets" l st
      = some (none,
          ((l.map (fun f => (dir, "internal/assets/" ++ f))).foldl
              (fun s c => (RestoreAsset fs c.1 c.2 s).2) st.1,
           st.2 ++ l.map (fun f => (dir, "internal/assets/" ++ f)))) := by
  induction l generalizing st with
  | nil => simp [restoreChildren]
  | cons f l ih =>
    have h1 := RestoreAssets_file o fs hfs dir f (hl f (List.mem_cons_self _ _)) fuel st
    have h2 := ih (fun g hg => hl g (List.mem_cons_of_mem _ hg))
      ((RestoreAsset fs dir ("internal/assets/" ++ f) st.1).2,
        st.2 ++ [(dir, "internal/assets/" ++ f)])
    simp only [restoreChildren, h1, h2, List.map_cons, List.append_assoc, List.singleton_append,
      List.foldl_cons]

/-- The calls `RestoreAssets` makes below a directory, for the iteration order
`o`: one per file of `internal/assets`. -/
theorem RestoreAssets_assets {σ : Type} (o : MapOrder) (fs : FileSys σ) (hfs : fs.Succeeds)
    (dir : String) (fuel : Nat) (st : RestoreState σ) :
    RestoreAssets o fs dir (fuel + 2) "internal/assets" st
      = some (none,
          (((o.order ["logrotate.conf", "postinstall-init.sh", "postinstall-launchd.sh",
      "postinstall-systemd.sh", "postinstall-upstart.sh", "preinstall-darwin.sh"]).map (fun f => (dir, "internal/assets/" ++ f))).foldl
              (fun s c => (RestoreAsset fs c.1 c.2 s).2) st.1,
           st.2 ++ (o.order ["logrotate.conf", "postinstall-init.sh", "postinstall-launchd.sh",
      "postinstall-systemd.sh", "postinstall-upstart.sh", "preinstall-darwin.sh"]).map (fun f => (dir, "internal/assets/" ++ f)))) := by
  have hd := (AssetDir_cases o "internal/assets").2.2.1 (by decide)
  simp only [RestoreAssets, hd]
  exact restoreChildren_files o fs hfs dir fuel _ (fun f hf => (o.perm _).mem_iff.1 hf) st

theorem RestoreAssets_internal {σ : Type} (o : MapOrder) (fs : FileSys σ) (hfs : fs.Succeeds)
    (dir : String) (fuel : Nat) (st : RestoreState σ) :
    RestoreAssets o fs dir (fuel + 3) "internal" st
      = some (none,
          (((o.order ["logrotate.conf", "postinstall-init.sh", "postinstall-launchd.sh",
      "postinstall-systemd.sh", "postinstall-upstart.sh", "preinstall-darwin.sh"]).map (fun f => (dir, "internal/assets/" ++ f))).foldl
              (fun s c => (RestoreAsset fs c.1 c.2 s).2) st.1,
           st.2 ++ (o.order ["logrotate.conf", "postinstall-init.sh", "postinstall-launchd.sh",
      "postinstall-systemd.sh", "postinstall-upstart.sh", "preinstall-darwin.sh"]).map (fun f => (dir, "internal/assets/" ++ f)))) := by
  have hd := (AssetDir_cases o "internal").2.1 (by decide)
  have hj : Join ["internal", "assets"] = "internal/assets" := by decide
  have h1 := RestoreAssets_assets o fs hfs dir fuel st
  simp only [RestoreAssets, hd, restoreChildren, hj]
  simp only [RestoreAssets, restoreChildren] at h1
  rw [h1]

theorem RestoreAssets_root {σ : Type} (o : MapOrder) (fs : FileSys σ) (hfs : fs.Succeeds)
    (dir : String) (fuel : Nat) (st : RestoreState σ) :
    RestoreAssets o fs dir (fuel + 4) "" st
      = some (none,
          (((o.order ["logrotate.conf", "postinstall-init.sh", "postinstall-launchd.sh",
      "postinstall-systemd.sh", "postinstall-upstart.sh", "preinstall-darwin.sh"]).map (fun f => (dir, "internal/assets/" ++ f))).foldl
              (fun s c => (RestoreAsset fs c.1 c.2 s).2) st.1,
           st.2 ++ (o.order ["logrotate.conf", "postinstall-init.sh", "postinstall-launchd.sh",
      "postinstall-systemd.sh", "postinstall-upstart.sh", "preinstall-darwin.sh"]).map (fun f => (dir, "internal/assets/" ++ f)))) := by
  have hd := (AssetDir_cases o "").1 rfl
  have hj : Join ["", "internal"] = "internal" := by decide
  have h1 := RestoreAssets_internal o fs hfs dir fuel st
  simp only [RestoreAssets, hd, restoreChildren, hj]
  simp only [RestoreAssets, restoreChildren] at h1
  rw [h1]

/-- C8: for each directory name of the tree (the root, `internal`,
`internal/assets`), every `dir` and every iteration order, when every
file-system operation succeeds, `RestoreAssets(dir, name)` returns nil within a
nesting depth of the depth of the tree (four nodes), the disk is the result of
its calls to `RestoreAsset`, and those calls are, in some order, one for each
registered asset whose path lies under `name`: all six. -/
theorem RestoreAssets_restores_each_asset_once {σ : Type} (o : MapOrder) (fs : FileSys σ)
    (hfs : fs.Succeeds) (dir name : String)
    (hname : name ∈ ["", "internal", "internal/assets"]) (s : σ) (fuel : Nat)
    (hfuel : _bintree.depth ≤ fuel) :
    _bintree.depth = 4 ∧
    ∃ calls : List (String × String),
      RestoreAssets o fs dir fuel name (s, [])
        = some (none, (calls.foldl (fun s c => (RestoreAsset fs c.1 c.2 s).2) s, calls)) ∧
      calls.Perm (((_bindata.map Prod.fst).filter (liesUnder name)).map (fun n => (dir, n))) ∧
      calls.Perm
        [(dir, "internal/assets/logrotate.conf"), (dir, "internal/assets/postinstall-init.sh"),
         (dir, "internal/assets/postinstall-launchd.sh"),
         (dir, "internal/assets/postinstall-systemd.sh"),
         (dir, "internal/assets/postinstall-upstart.sh"),
         (dir, "internal/assets/preinstall-darwin.sh")] := by
  have hdepth : _bintree.depth = 4 := by decide
  refine ⟨hdepth, ?_⟩
  rw [hdepth] at hfuel
  obtain ⟨k, rfl⟩ := Nat.exists_eq_add_of_le hfuel
  have hperm := (o.perm ["logrotate.conf", "postinstall-init.sh", "postinstall-launchd.sh",
      "postinstall-systemd.sh", "postinstall-upstart.sh", "preinstall-darwin.sh"]).map (fun f => (dir, "internal/assets/" ++ f))
  have hfilter : ∀ n ∈ ["", "internal", "internal/assets"],
      (_bindata.map Prod.fst).filter (liesUnder n)
        = ["logrotate.conf", "postinstall-init.sh", "postinstall-launchd.sh",
      "postinstall-systemd.sh", "postinstall-upstart.sh", "preinstall-darwin.sh"].map
          (fun f => "internal/assets/" ++ f) := by decide
  refine ⟨(o.order ["logrotate.conf", "postinstall-init.sh", "postinstall-launchd.sh",
      "postinstall-systemd.sh", "postinstall-upstart.sh", "preinstall-darwin.sh"]).map (fun f => (dir, "internal/assets/" ++ f)), ?_,
    by rw [hfilter name hname, List.map_map]; exact hperm, hperm⟩
  simp only [List.mem_cons, List.mem_singleton, List.not_mem_nil, or_false] at hname
  rcases hname with rfl | rfl | rfl
  · have h := RestoreAssets_root o fs hfs dir k (s, [])
    rw [Nat.add_comm 4 k]
    simpa using h
  · have h := RestoreAssets_internal o fs hfs dir (k + 1) (s, [])
    rw [Nat.add_comm 4 k]
    simpa using h
  · have h := RestoreAssets_assets o fs hfs dir (k + 2) (s, [])
    rw [Nat.add_comm 4 k]
    simpa using h

theorem RestoreAssets_restores_each_asset_once_witness :
    recordingFS.Succeeds ∧ _bintree.depth ≤ 4 ∧ _bintree.depth = 4 ∧
    ∃ calls : List (String × String),
      RestoreAssets reverseOrder recordingFS "/out" 4 "" ([], [])
        = some (none,
            (calls.foldl (fun s c => (RestoreAsset recordingFS c.1 c.2 s).2) [], calls)) ∧
      calls.Perm (((_bindata.map Prod.fst).filter (liesUnder "")).map (fun n => ("/out", n))) ∧
      calls.Perm
        [("/out", "internal/assets/logrotate.conf"),
         ("/out", "internal/assets/postinstall-init.sh"),
         ("/out", "internal/assets/postinstall-launchd.sh"),
         ("/out", "internal/assets/postinstall-systemd.sh"),
         ("/out", "internal/assets/postinstall-upstart.sh"),
         ("/out", "internal/assets/preinstall-darwin.sh")] :=
  ⟨⟨fun _ _ _ => rfl, fun _ _ _ _ => rfl, fun _ _ _ _ => rfl⟩, by decide,
   RestoreAssets_restores_each_asset_once reverseOrder recordingFS
     ⟨fun _ _ _ => rfl, fun _ _ _ _ => rfl, fun _ _ _ _ => rfl⟩ "/out" "" (by decide) [] 4
     (by decide)⟩

/-- From the root the nesting really reaches the depth of the tree: three
levels are not enough. -/
theorem RestoreAssets_root_depth {σ : Type} (o : MapOrder) (fs : FileSys σ) (dir : String)
    (st : RestoreState σ) : RestoreAssets o fs dir 3 "" st = none := by
  have h0 := (AssetDir_cases o "").1 rfl
  have h1 := (AssetDir_cases o "internal").2.1 (by decide)
  have h2 := (AssetDir_cases o "internal/assets").2.2.1 (by decide)
  have hj0 : Join ["", "internal"] = "internal" := by decide
  have hj1 : Join ["internal", "assets"] = "internal/assets" := by decide
  have hne : o.order ["logrotate.conf", "postinstall-init.sh", "postinstall-launchd.sh",
      "postinstall-systemd.sh", "postinstall-upstart.sh", "preinstall-darwin.sh"] ≠ [] := by
    intro h
    have := (o.perm ["logrotate.conf", "postinstall-init.sh", "postinstall-launchd.sh",
      "postinstall-systemd.sh", "postinstall-upstart.sh", "preinstall-darwin.sh"]).length_eq
    rw [h] at this
    simp at this
  simp only [RestoreAssets, h0, h1, h2, restoreChildren, hj0, hj1]
  cases hl : o.order ["logrotate.conf", "postinstall-init.sh", "postinstall-launchd.sh",
      "postinstall-systemd.sh", "postinstall-upstart.sh", "preinstall-darwin.sh"] with
  | nil => exact absurd hl hne
  | cons c cs => simp [restoreChildren, RestoreAssets]

end Assets
